import Mathlib

/-!
# Verification of the RAG Knowledge Assistant core (src/app.py)

Shallow embedding of the retrieval-augmented-query workflow of `app.py`:
the batched embedder (`get_text_embedding`), the index loader
(`load_existing_index`), the retriever (`rag_query`) and the question
handler of `main`.  External services (embedding API, faiss index search,
chat completion) are modelled as explicit oracles passed in, and every
outgoing request is recorded in a trace so that "no network call is made"
is a provable statement.  Machine floats never matter to the claims, so
the embedding-vector type is an abstract type parameter `E`.
-/

namespace RagApp

/-- A request issued to an external collaborator during one operation:
one embedding-API call per batch, one faiss `search`, one chat completion. -/
inductive NetCall where
  | embedReq (inputs : List String)
  | searchReq (k : Nat)
  | chatReq (prompt : String)
deriving DecidableEq

/-- The faiss index object held in `st.session_state.index`: its row count
(`ntotal`) and its `search` method, which for one query vector and `k`
returns the first row of `I` (`I.tolist()[0]`), a list of `Int` indices
(faiss pads with `-1` when fewer than `k` rows exist). -/
structure FaissIndex (E : Type) where
  ntotal : Nat
  search : E → Nat → List Int

/-- The two external network services used by the app: the embedding
endpoint (`client.embeddings.create` — one call per batch, `none` models a
raised exception) and the chat-completion endpoint (`client.chat.complete`
— `.error msg` models a raised exception with message `msg`). -/
structure Env (E : Type) where
  embed : List String → Option (List E)
  chat : String → Except String String

/-- One entry of `st.session_state.chat_history`.  A user turn carries
empty `context`/`sources` (the Python dict simply lacks those keys). -/
structure Turn where
  role : String
  content : String
  context : String
  sources : List String
deriving DecidableEq

/-- The Streamlit session state fields the core logic reads and writes
(`api_key`, `chunks`, `sources`, `index`, `chat_history`); the UI-only
flag `show_context` plays no role in the verified operations. -/
structure SessionState (E : Type) where
  api_key : String
  chunks : List String
  sources : List String
  index : Option (FaissIndex E)
  chat_history : List Turn

/-- Session-state initialisation: `api_key` from the environment variable
(empty default), everything else empty/unset. -/
def initState (E : Type) (envKey : String) : SessionState E :=
  { api_key := envKey, chunks := [], sources := [], index := none, chat_history := [] }

/-- The batching loop of `get_text_embedding`: `for i in range(0,
len(list_txt_chunks), batch_size)` takes the slice `[i:i+batch_size]`,
calls the embedding service once per batch, extends the accumulator with
the response data on success and with one `None` per batch item on a
caught exception.  `fuel` bounds the iteration count (the list length
suffices whenever `batch_size > 0`; Python raises on `batch_size = 0`). -/
def embedBatchesAux (embedCall : List String → Option (List E)) (batch_size : Nat) :
    Nat → List String → List (Option E) × List NetCall
  | _, [] => ([], [])
  | 0, _ :: _ => ([], [])
  | fuel+1, x :: xs =>
    let batch := (x :: xs).take batch_size
    let rest := embedBatchesAux embedCall batch_size fuel ((x :: xs).drop batch_size)
    match embedCall batch with
    | some data => (data.map some ++ rest.1, NetCall.embedReq batch :: rest.2)
    | none => (List.replicate batch.length none ++ rest.1, NetCall.embedReq batch :: rest.2)

/-- `get_text_embedding(list_txt_chunks, batch_size=10)`: embeddings for
text chunks, with batching; a failed batch contributes placeholder `None`
entries.  Returns the embedding list together with the trace of
embedding-API calls made. -/
def get_text_embedding (embedCall : List String → Option (List E))
    (list_txt_chunks : List String) (batch_size : Nat) :
    List (Option E) × List NetCall :=
  embedBatchesAux embedCall batch_size list_txt_chunks.length list_txt_chunks

/-- A value stored under a key of the unpickled `rag_data.pkl` dict:
either the intended list of strings, or a type-mismatched non-sized value
(modelled by an arbitrary integer) — assigning it to a session field
succeeds in Python, but calling `len` on it raises `TypeError`. -/
inductive PklValue where
  | strList (l : List String)
  | intVal (n : Int)
deriving DecidableEq

/-- Python `len(v)`: the length of a list; `none` models the `TypeError`
raised on a non-sized value such as an int. -/
def pklLen : PklValue → Option Nat
  | .strList l => some l.length
  | .intVal _ => none

/-- The `"chunks"`/`"sources"`/`"api_key"` entries of the unpickled
`rag_data.pkl` dict; `none` models an absent key (a `KeyError` schema
mismatch when accessed), and a present key may hold a type-mismatched
non-list value. -/
structure RawData where
  chunks : Option PklValue
  sources : Option PklValue
  api_key : Option String

/-- The session state as Python actually holds it around
`load_existing_index`: the load assigns whatever the pickle held, so the
`chunks`/`sources` fields can end up holding a non-list value.  A
well-typed `SessionState` (the invariant state every other operation
works on) embeds into it via `SessionState.toPy`. -/
structure PySessionState (E : Type) where
  api_key : String
  chunks : PklValue
  sources : PklValue
  index : Option (FaissIndex E)
  chat_history : List Turn

/-- A well-typed session viewed at Python level. -/
def SessionState.toPy {E : Type} (s : SessionState E) : PySessionState E :=
  { api_key := s.api_key, chunks := .strList s.chunks, sources := .strList s.sources,
    index := s.index, chat_history := s.chat_history }

/-- `load_existing_index()`: reads the faiss index file and the pickle
(each modelled as an `Except` oracle, `.error` = raised exception), then
assigns `st.session_state.chunks`, `.sources`, `.index` in that order,
then the cached API key when the session key is empty, and finally emits
the success message, whose `len(data["chunks"])` raises `TypeError` when
that entry is not sized — a failure point reached only after every
assignment has already happened.  Any exception inside the `try` yields
`False` and stops further statements; returns the success flag together
with the resulting session state. -/
def load_existing_index (readIndex : Except String (FaissIndex E))
    (readData : Except String RawData) (s : PySessionState E) :
    Bool × PySessionState E :=
  match readIndex with
  | .error _ => (false, s)
  | .ok index =>
    match readData with
    | .error _ => (false, s)
    | .ok data =>
      match data.chunks with
      | none => (false, s)
      | some cs =>
        let s1 := { s with chunks := cs }
        match data.sources with
        | none => (false, s1)
        | some srcs =>
          let s2 := { s1 with sources := srcs, index := some index }
          let s3 :=
            match data.api_key with
            | some key => if s2.api_key = "" then { s2 with api_key := key } else s2
            | none => s2
          match pklLen cs with
          | none => (false, s3)
          | some _ => (true, s3)

/-- Python sequence indexing `l[i]` with negative-index wrap-around:
`none` models a raised `IndexError`. -/
def pyGet (l : List α) (i : Int) : Option α :=
  let j : Int := if i < 0 then (l.length : Int) + i else i
  if 0 ≤ j then l[j.toNat]? else none

/-- A list comprehension `[l[i] for i in idxs]`, evaluated left to right;
`none` models an `IndexError` raised part-way through. -/
def listComp (l : List α) : List Int → Option (List α)
  | [] => some []
  | i :: rest =>
    match pyGet l i with
    | none => none
    | some a =>
      match listComp l rest with
      | none => none
      | some as => some (a :: as)

/-- One section of the retrieval context:
`f"\nChunk {i+1}:\n{chunk}\n{src}\n---\n"`. -/
def chunkSection (i : Nat) (chunk src : String) : String :=
  "\nChunk " ++ toString (i+1) ++ ":\n" ++ chunk ++ "\n" ++ src ++ "\n---\n"

/-- The context-assembly loop of `rag_query`:
`for i, chunk in enumerate(retrieved_chunks): context += f"..."`,
indexing `retrieved_sources[i]` (an out-of-range index would raise, hence
`Option`). -/
def buildContextAux (retrieved_sources : List String) :
    Nat → String → List String → Option String
  | _, context, [] => some context
  | i, context, chunk :: rest =>
    match retrieved_sources[i]? with
    | none => none
    | some src => buildContextAux retrieved_sources (i+1) (context ++ chunkSection i chunk src) rest

/-- The assembled context block for the retrieved chunks and sources. -/
def buildContext (retrieved_chunks retrieved_sources : List String) : Option String :=
  buildContextAux retrieved_sources 0 "" retrieved_chunks

/-- The grounded prompt built by `rag_query` (the f-string verbatim,
with `context` and `question` interpolated). -/
def buildPrompt (context question : String) : String :=
  "\n    You are given the following context information. Use it to answer the user\u0027s question accurately.\n    If the information needed is not in the context, please say \"I don\u0027t have enough information to answer this question.\"\n    \n    Context information:\n    ---------------------\n    "
  ++ context ++
  "\n    ---------------------\n    \n    Question: "
  ++ question ++
  "\n    \n    Please provide a comprehensive answer based solely on the context information provided.\n    Include references to the policy used to get that answer formatted like this: Policy: Name - (Policy URL). Don\u0027t mention the chunk numbers.\n    "

/-- `rag_query(question, k=3)`: guards on an unset index or empty chunk
list, embeds the question (batch of one), searches the index, maps the
returned indices back through `chunks`/`sources`, assembles the context
block and asks the chat model.  `.error` in the first component models an
exception escaping `rag_query` (only possible from out-of-range indexing);
the second component is the trace of external calls issued. -/
def rag_query (env : Env E) (s : SessionState E) (question : String) (k : Nat) :
    Except String (String × String × List String) × List NetCall :=
  match s.index, s.chunks with
  | none, _ => (.ok ("Knowledge Base Not Loaded", "", []), [])
  | some _, [] => (.ok ("Knowledge Base Not Loaded", "", []), [])
  | some index, _ :: _ =>
    let qres := get_text_embedding env.embed [question] 10
    match qres.1 with
    | [] => (.ok ("Error: Could not generate embeddings for the question.", "", []), qres.2)
    | none :: _ => (.ok ("Error: Could not generate embeddings for the question.", "", []), qres.2)
    | some query_embedding :: _ =>
      let idxs := index.search query_embedding k
      let tr := qres.2 ++ [NetCall.searchReq k]
      match listComp s.chunks idxs with
      | none => (.error "IndexError", tr)
      | some retrieved_chunks =>
        match listComp s.sources idxs with
        | none => (.error "IndexError", tr)
        | some retrieved_sources =>
          match buildContext retrieved_chunks retrieved_sources with
          | none => (.error "IndexError", tr)
          | some context =>
            let prompt := buildPrompt context question
            let response :=
              match env.chat prompt with
              | .ok chat_response => chat_response
              | .error e => "Error generating response: " ++ e
            (.ok (response, context, retrieved_sources), tr ++ [NetCall.chatReq prompt])

/-- The `if user_question:` block of `main()`: appends the user turn, then
either short-circuits on a missing API key, or on an unset index, or runs
`rag_query`, and appends the assistant turn.  Returns the new session
state, the displayed answer (`.error` = an exception escaping the block),
and the trace of external calls. -/
def handle_question (env : Env E) (s : SessionState E) (user_question : String) :
    SessionState E × Except String String × List NetCall :=
  let s1 := { s with chat_history := s.chat_history ++ [Turn.mk "user" user_question "" []] }
  if s1.api_key = "" then
    let response := "Please enter your Mistral API key in the sidebar."
    ({ s1 with chat_history := s1.chat_history ++ [Turn.mk "assistant" response "" []] },
      .ok response, [])
  else
    match s1.index with
    | none =>
      let response := "Please add knowledge sources before asking questions."
      ({ s1 with chat_history := s1.chat_history ++ [Turn.mk "assistant" response "" []] },
        .ok response, [])
    | some _ =>
      match rag_query env s1 user_question 3 with
      | (.ok (response, context, srcs), tr) =>
        ({ s1 with chat_history := s1.chat_history ++ [Turn.mk "assistant" response context srcs] },
          .ok response, tr)
      | (.error e, tr) => (s1, .error e, tr)

/-! ### Embedder lemmas -/

lemma embedBatchesAux_cons {E : Type} (embedCall : List String → Option (List E))
    (bs fuel : Nat) (x : String) (xs : List String) :
    embedBatchesAux embedCall bs (fuel+1) (x :: xs) =
      match embedCall ((x :: xs).take bs) with
      | some data =>
        (data.map some ++ (embedBatchesAux embedCall bs fuel ((x :: xs).drop bs)).1,
          NetCall.embedReq ((x :: xs).take bs) ::
            (embedBatchesAux embedCall bs fuel ((x :: xs).drop bs)).2)
      | none =>
        (List.replicate ((x :: xs).take bs).length none ++
            (embedBatchesAux embedCall bs fuel ((x :: xs).drop bs)).1,
          NetCall.embedReq ((x :: xs).take bs) ::
            (embedBatchesAux embedCall bs fuel ((x :: xs).drop bs)).2) := rfl

lemma embedBatchesAux_fst_length {E : Type} (embedCall : List String → Option (List E))
    (bs : Nat) (hbs : 0 < bs)
    (hlen : ∀ b r, embedCall b = some r → r.length = b.length) :
    ∀ fuel l, l.length ≤ fuel →
      ((embedBatchesAux embedCall bs fuel l).1).length = l.length := by
  intro fuel
  induction fuel with
  | zero =>
    intro l hl
    cases l with
    | nil => rfl
    | cons x xs => simp at hl
  | succ n ih =>
    intro l hl
    cases l with
    | nil => rfl
    | cons x xs =>
      rw [embedBatchesAux_cons]
      have hrest : ((embedBatchesAux embedCall bs n ((x :: xs).drop bs)).1).length
          = ((x :: xs).drop bs).length := by
        apply ih
        simp only [List.length_drop, List.length_cons] at *
        omega
      cases hcall : embedCall ((x :: xs).take bs) with
      | some data =>
        have hd := hlen _ _ hcall
        simp only [List.length_append, List.length_map, hd, hrest, List.length_take,
          List.length_drop, List.length_cons]
        omega
      | none =>
        simp only [List.length_append, List.length_replicate, hrest, List.length_take,
          List.length_drop, List.length_cons]
        omega

lemma embedBatchesAux_fst_getElem {E : Type} (embedCall : List String → Option (List E))
    (bs : Nat) (hbs : 0 < bs)
    (hlen : ∀ b r, embedCall b = some r → r.length = b.length) :
    ∀ fuel l i, l.length ≤ fuel → i < l.length →
      ((embedBatchesAux embedCall bs fuel l).1)[i]? =
        some ((embedCall ((l.drop (bs * (i / bs))).take bs)).bind
          (fun r => r[i % bs]?)) := by
  intro fuel
  induction fuel with
  | zero =>
    intro l i hl hi
    cases l with
    | nil => simp at hi
    | cons x xs => simp at hl
  | succ n ih =>
    intro l i hl hi
    cases l with
    | nil => simp at hi
    | cons x xs =>
      rw [embedBatchesAux_cons]
      have hbatchlen : ((x :: xs).take bs).length = min bs (x :: xs).length := by
        simp [List.length_take]
      by_cases hibs : i < bs
      · -- `i` lies in the first batch
        have hdiv : i / bs = 0 := Nat.div_eq_of_lt hibs
        have hmod : i % bs = i := Nat.mod_eq_of_lt hibs
        rw [hdiv, hmod, Nat.mul_zero, List.drop_zero]
        cases hcall : embedCall ((x :: xs).take bs) with
        | some data =>
          have hd : data.length = min bs (x :: xs).length := by
            rw [hlen _ _ hcall, hbatchlen]
          have hilt : i < (data.map some).length := by
            simp only [List.length_map, hd]; omega
          rw [List.getElem?_append_left hilt, List.getElem?_map]
          have : i < data.length := by simp only [List.length_map] at hilt; exact hilt
          rw [List.getElem?_eq_getElem this]
          simp
        | none =>
          have hilt : i < (List.replicate ((x :: xs).take bs).length (none : Option E)).length := by
            simp only [List.length_replicate, hbatchlen]; omega
          rw [List.getElem?_append_left hilt]
          have : i < ((x :: xs).take bs).length := by
            simp only [List.length_replicate] at hilt; exact hilt
          rw [List.getElem?_eq_getElem (by simpa using this)]
          simp
      · -- `i` lies in a later batch: use the induction hypothesis on the tail
        have hble : bs ≤ i := Nat.le_of_not_lt hibs
        have hlen2 : ((x :: xs).drop bs).length = (x :: xs).length - bs := by
          simp [List.length_drop]
        have hfuel : ((x :: xs).drop bs).length ≤ n := by
          simp only [List.length_drop, List.length_cons] at *
          omega
        have hi2 : i - bs < ((x :: xs).drop bs).length := by
          simp only [List.length_drop, List.length_cons] at *
          omega
        have hih := ih ((x :: xs).drop bs) (i - bs) hfuel hi2
        have hdiv : i / bs = (i - bs) / bs + 1 := Nat.div_eq_sub_div hbs hble
        have hmod : i % bs = (i - bs) % bs := Nat.mod_eq_sub_mod hble
        have hdropdrop : ((x :: xs).drop bs).drop (bs * ((i - bs) / bs))
            = (x :: xs).drop (bs * (i / bs)) := by
          rw [List.drop_drop, hdiv, Nat.mul_add, Nat.mul_one, Nat.add_comm]
        rw [hdropdrop] at hih
        have hminbs : min bs (x :: xs).length = bs := by omega
        cases hcall : embedCall ((x :: xs).take bs) with
        | some data =>
          have hfirst : (data.map some).length = bs := by
            rw [List.length_map, hlen _ _ hcall, hbatchlen, hminbs]
          have hlen1 : (data.map some).length ≤ i := by rw [hfirst]; exact hble
          rw [List.getElem?_append_right hlen1, hfirst, hih, hmod]
        | none =>
          have hfirst : (List.replicate ((x :: xs).take bs).length (none : Option E)).length
              = bs := by
            rw [List.length_replicate, hbatchlen, hminbs]
          have hlen1 : (List.replicate ((x :: xs).take bs).length (none : Option E)).length
              ≤ i := by rw [hfirst]; exact hble
          rw [List.getElem?_append_right hlen1, hfirst, hih, hmod]

lemma embedBatchesAux_fuel_congr {E : Type} (embedCall : List String → Option (List E))
    (bs : Nat) (hbs : 0 < bs) :
    ∀ fuel fuel' l, l.length ≤ fuel → l.length ≤ fuel' →
      embedBatchesAux embedCall bs fuel l = embedBatchesAux embedCall bs fuel' l := by
  intro fuel
  induction fuel with
  | zero =>
    intro fuel' l hl hl'
    cases l with
    | nil => cases fuel' <;> rfl
    | cons x xs => simp at hl
  | succ n ih =>
    intro fuel' l hl hl'
    cases l with
    | nil => cases fuel' <;> rfl
    | cons x xs =>
      cases fuel' with
      | zero => simp at hl'
      | succ m =>
        rw [embedBatchesAux_cons, embedBatchesAux_cons,
          ih m ((x :: xs).drop bs)
            (by simp only [List.length_drop, List.length_cons] at *; omega)
            (by simp only [List.length_drop, List.length_cons] at *; omega)]

lemma get_text_embedding_nil {E : Type} (embedCall : List String → Option (List E))
    (bs : Nat) : get_text_embedding embedCall [] bs = ([], []) := rfl

/-- One Python loop iteration of `get_text_embedding`, phrased as an
unfolding of the model on a non-empty input (valid whenever
`batch_size > 0`, which Python requires anyway for `range` to step). -/
lemma get_text_embedding_cons {E : Type} (embedCall : List String → Option (List E))
    (bs : Nat) (hbs : 0 < bs) (x : String) (xs : List String) :
    get_text_embedding embedCall (x :: xs) bs =
      match embedCall ((x :: xs).take bs) with
      | some data =>
        (data.map some ++ (get_text_embedding embedCall ((x :: xs).drop bs) bs).1,
          NetCall.embedReq ((x :: xs).take bs) ::
            (get_text_embedding embedCall ((x :: xs).drop bs) bs).2)
      | none =>
        (List.replicate ((x :: xs).take bs).length none ++
            (get_text_embedding embedCall ((x :: xs).drop bs) bs).1,
          NetCall.embedReq ((x :: xs).take bs) ::
            (get_text_embedding embedCall ((x :: xs).drop bs) bs).2) := by
  unfold get_text_embedding
  rw [List.length_cons, embedBatchesAux_cons,
    embedBatchesAux_fuel_congr embedCall bs hbs xs.length ((x :: xs).drop bs).length
      ((x :: xs).drop bs)
      (by simp only [List.length_drop, List.length_cons]; omega) le_rfl]

/-! ### C1 and C2: the Embedder -/

/-- C1: for every input list, batch size and per-batch success/failure
pattern of the external embedding call (whose successful responses match
the batch length, per the service interface), the embedder output has
exactly the input's length, and element `i` is the `i % batch_size`-th
embedding of its own batch's response when that batch succeeded, and the
`None` failure marker when it failed. -/
theorem embedder_preserves_length_and_order {E : Type}
    (embedCall : List String → Option (List E)) (txts : List String) (batch_size : Nat)
    (hbs : 0 < batch_size)
    (hresp : ∀ b r, embedCall b = some r → r.length = b.length) :
    ((get_text_embedding embedCall txts batch_size).1).length = txts.length ∧
    (∀ i, i < txts.length →
      ((get_text_embedding embedCall txts batch_size).1)[i]? =
        some ((embedCall ((txts.drop (batch_size * (i / batch_size))).take batch_size)).bind
          (fun r => r[i % batch_size]?))) := by
  constructor
  · exact embedBatchesAux_fst_length embedCall batch_size hbs hresp txts.length txts le_rfl
  · intro i hi
    exact embedBatchesAux_fst_getElem embedCall batch_size hbs hresp txts.length txts i le_rfl hi

/-- A concrete always-succeeding embedding service used by witnesses. -/
def embedOkW : List String → Option (List Nat) :=
  fun b => some (List.replicate b.length 7)

theorem embedder_preserves_length_and_order_witness :
    ((get_text_embedding embedOkW ["a", "b", "c"] 2).1).length
      = (["a", "b", "c"] : List String).length :=
  (embedder_preserves_length_and_order embedOkW ["a", "b", "c"] 2 (by decide)
    (fun b r h => by
      simp only [embedOkW, Option.some.injEq] at h
      rw [← h, List.length_replicate])).1

/-- C2: embedding-batch failure is isolated per batch.  For a 12-item
input batched in fives, when the external call throws exactly on the
batch holding items 5–9 and succeeds on the other two batches, the
embedder still returns one entry per item: entries 0–4 and 10–11 are
genuine (non-null) embeddings and entries 5–9 are the failure markers. -/
theorem embedder_batch_failure_isolated {E : Type}
    (embedCall : List String → Option (List E))
    (t0 t1 t2 t3 t4 t5 t6 t7 t8 t9 ta tb : String) (e1 e3 : List E)
    (h1 : embedCall [t0, t1, t2, t3, t4] = some e1) (h1len : e1.length = 5)
    (h2 : embedCall [t5, t6, t7, t8, t9] = none)
    (h3 : embedCall [ta, tb] = some e3) (h3len : e3.length = 2) :
    (get_text_embedding embedCall [t0, t1, t2, t3, t4, t5, t6, t7, t8, t9, ta, tb] 5).1
        = e1.map some ++ (List.replicate 5 (none : Option E) ++ e3.map some) ∧
    (∀ j, j < 5 → ∃ v, ((get_text_embedding embedCall
        [t0, t1, t2, t3, t4, t5, t6, t7, t8, t9, ta, tb] 5).1)[j]? = some (some v)) ∧
    (∀ j, 5 ≤ j → j < 10 → ((get_text_embedding embedCall
        [t0, t1, t2, t3, t4, t5, t6, t7, t8, t9, ta, tb] 5).1)[j]? = some none) ∧
    (∀ j, 10 ≤ j → j < 12 → ∃ v, ((get_text_embedding embedCall
        [t0, t1, t2, t3, t4, t5, t6, t7, t8, t9, ta, tb] 5).1)[j]? = some (some v)) := by
  have h5 : (0 : Nat) < 5 := by decide
  have htake1 : (t0 :: [t1, t2, t3, t4, t5, t6, t7, t8, t9, ta, tb]).take 5
      = [t0, t1, t2, t3, t4] := rfl
  have hdrop1 : (t0 :: [t1, t2, t3, t4, t5, t6, t7, t8, t9, ta, tb]).drop 5
      = [t5, t6, t7, t8, t9, ta, tb] := rfl
  have htake2 : (t5 :: [t6, t7, t8, t9, ta, tb]).take 5 = [t5, t6, t7, t8, t9] := rfl
  have hdrop2 : (t5 :: [t6, t7, t8, t9, ta, tb]).drop 5 = [ta, tb] := rfl
  have htake3 : (ta :: [tb]).take 5 = [ta, tb] := rfl
  have hdrop3 : (ta :: [tb]).drop 5 = ([] : List String) := rfl
  have hmain : (get_text_embedding embedCall
      [t0, t1, t2, t3, t4, t5, t6, t7, t8, t9, ta, tb] 5).1
      = e1.map some ++ (List.replicate 5 (none : Option E) ++ e3.map some) := by
    rw [get_text_embedding_cons embedCall 5 h5, htake1, hdrop1, h1]
    simp only []
    rw [get_text_embedding_cons embedCall 5 h5, htake2, hdrop2, h2]
    simp only []
    rw [get_text_embedding_cons embedCall 5 h5, htake3, hdrop3, h3]
    simp [get_text_embedding_nil]
  refine ⟨hmain, ?_, ?_, ?_⟩
  · intro j hj
    have hj1 : j < e1.length := by omega
    have hjm : j < (e1.map some).length := by rw [List.length_map]; omega
    rw [hmain, List.getElem?_append_left hjm, List.getElem?_map,
      List.getElem?_eq_getElem hj1]
    exact ⟨e1.get ⟨j, hj1⟩, rfl⟩
  · intro j hj1 hj2
    have hjm : (e1.map some).length ≤ j := by rw [List.length_map]; omega
    have hlt : j - (e1.map some).length < (List.replicate 5 (none : Option E)).length := by
      rw [List.length_map, List.length_replicate]; omega
    rw [hmain, List.getElem?_append_right hjm, List.getElem?_append_left hlt,
      List.getElem?_eq_getElem hlt, List.getElem_replicate]
  · intro j hj1 hj2
    have hjm : (e1.map some).length ≤ j := by rw [List.length_map]; omega
    have hjr : (List.replicate 5 (none : Option E)).length ≤ j - (e1.map some).length := by
      rw [List.length_map, List.length_replicate]; omega
    have hje : j - (e1.map some).length - (List.replicate 5 (none : Option E)).length
        < e3.length := by
      rw [List.length_map, List.length_replicate]; omega
    rw [hmain, List.getElem?_append_right hjm, List.getElem?_append_right hjr,
      List.getElem?_map, List.getElem?_eq_getElem hje]
    exact ⟨e3.get ⟨_, hje⟩, rfl⟩

/-- A concrete embedding service that throws exactly on the batch whose
first element is `"x5"`; used by the C2 witness. -/
def embedFailW : List String → Option (List Nat) :=
  fun b => if b.head? = some "x5" then none else some (List.replicate b.length 7)

theorem embedder_batch_failure_isolated_witness :
    (get_text_embedding embedFailW
        ["a0", "a1", "a2", "a3", "a4", "x5", "a6", "a7", "a8", "a9", "b10", "b11"] 5).1
      = (List.replicate 5 (7 : Nat)).map some ++
          (List.replicate 5 (none : Option Nat) ++ (List.replicate 2 (7 : Nat)).map some) :=
  (embedder_batch_failure_isolated embedFailW
    "a0" "a1" "a2" "a3" "a4" "x5" "a6" "a7" "a8" "a9" "b10" "b11"
    (List.replicate 5 7) (List.replicate 2 7)
    (by decide) (by decide) (by decide) (by decide) (by decide)).1

/-! ### C3, C4, C6: the Retriever guards -/

/-- The first guard of `rag_query`: an unset index or an empty chunk list
short-circuits to the not-loaded sentinel with no external call. -/
lemma rag_query_guard {E : Type} (env : Env E) (s : SessionState E)
    (question : String) (k : Nat) (h : s.index = none ∨ s.chunks = []) :
    rag_query env s question k = (.ok ("Knowledge Base Not Loaded", "", []), []) := by
  rcases h with h | h
  · cases hc : s.chunks <;> simp [rag_query, h, hc]
  · cases hidx : s.index <;> simp [rag_query, h, hidx]

/-- C3: with no knowledge base loaded (index unset or chunk list empty),
`rag_query` immediately returns the literal not-loaded signal with empty
context and empty source list, and its trace of external calls is empty
(no embedding, search or chat-completion request). -/
theorem rag_query_short_circuits_when_not_loaded {E : Type} (env : Env E)
    (s : SessionState E) (question : String) (k : Nat)
    (h : s.index = none ∨ s.chunks = []) :
    rag_query env s question k = (.ok ("Knowledge Base Not Loaded", "", []), []) :=
  rag_query_guard env s question k h

/-- A concrete environment whose oracles are never consulted in witness
scenarios that must make no network call. -/
def envW : Env Nat :=
  { embed := fun b => some (List.replicate b.length 7),
    chat := fun _ => .ok "an answer" }

theorem rag_query_short_circuits_when_not_loaded_witness :
    rag_query envW (initState Nat "key") "what is the policy" 3
      = (.ok ("Knowledge Base Not Loaded", "", []), []) :=
  rag_query_short_circuits_when_not_loaded envW (initState Nat "key")
    "what is the policy" 3 (Or.inl rfl)

/-- C4: searching with an empty (zero rows, and hence — by the alignment
invariant — zero chunks) or unset index yields the empty result through
`rag_query`: empty context, empty source list, a `.ok` return (no
exception escapes the Retriever boundary) and no search call issued. -/
theorem search_on_empty_or_unset_index_returns_empty {E : Type} (env : Env E)
    (s : SessionState E) (question : String) (k : Nat)
    (h : s.index = none ∨
      ∃ ix, s.index = some ix ∧ ix.ntotal = 0 ∧ s.chunks.length = ix.ntotal) :
    rag_query env s question k = (.ok ("Knowledge Base Not Loaded", "", []), []) := by
  apply rag_query_guard
  rcases h with h | ⟨ix, hix, hnt, hal⟩
  · exact Or.inl h
  · right
    rw [hnt] at hal
    exact List.length_eq_zero.mp hal

/-- An empty concrete faiss index (zero rows). -/
def emptyIdxW : FaissIndex Nat := { ntotal := 0, search := fun _ k => List.replicate k (-1) }

theorem search_on_empty_or_unset_index_returns_empty_witness :
    rag_query envW
      { api_key := "key", chunks := [], sources := [], index := some emptyIdxW,
        chat_history := [] } "q" 3
      = (.ok ("Knowledge Base Not Loaded", "", []), []) :=
  search_on_empty_or_unset_index_returns_empty envW
    { api_key := "key", chunks := [], sources := [], index := some emptyIdxW,
      chat_history := [] } "q" 3
    (Or.inr ⟨emptyIdxW, rfl, rfl, rfl⟩)

/-- C6: with a loaded knowledge base, when embedding the question (a
batch of one) fails, `rag_query` returns the explicit
could-not-embed-question error with empty context and empty sources, and
its trace holds exactly the one embedding call — no search and no
chat-completion request. -/
theorem rag_query_question_embedding_failure {E : Type} (env : Env E)
    (s : SessionState E) (question : String) (k : Nat) (ix : FaissIndex E)
    (hidx : s.index = some ix) (hch : s.chunks ≠ [])
    (hembed : env.embed [question] = none) :
    rag_query env s question k =
      (.ok ("Error: Could not generate embeddings for the question.", "", []),
        [NetCall.embedReq [question]]) := by
  rcases hc : s.chunks with _ | ⟨c, cs⟩
  · exact absurd hc hch
  have htake : (question :: ([] : List String)).take 10 = [question] := rfl
  have hdrop : (question :: ([] : List String)).drop 10 = ([] : List String) := rfl
  simp [rag_query, hidx, hc, get_text_embedding_cons env.embed 10 (by decide),
    htake, hdrop, hembed, get_text_embedding_nil]

/-- An environment whose embedding endpoint always throws. -/
def envEmbedFailW : Env Nat :=
  { embed := fun _ => none, chat := fun _ => .ok "an answer" }

/-- A one-row concrete faiss index over `Nat` "vectors". -/
def idxW : FaissIndex Nat := { ntotal := 1, search := fun _ k => (List.range k).map Int.ofNat }

theorem rag_query_question_embedding_failure_witness :
    rag_query envEmbedFailW
      { api_key := "key", chunks := ["c0"], sources := ["s0"], index := some idxW,
        chat_history := [] } "q" 3
      = (.ok ("Error: Could not generate embeddings for the question.", "", []),
          [NetCall.embedReq ["q"]]) :=
  rag_query_question_embedding_failure envEmbedFailW
    { api_key := "key", chunks := ["c0"], sources := ["s0"], index := some idxW,
      chat_history := [] } "q" 3 idxW rfl (by decide) rfl

/-! ### C5 and C10: the index loader -/

/-- C5 (amended): every failing load returns the failure signal, and the
knowledge base is guaranteed untouched exactly when the failure occurs
before the chunks assignment — an index-file read error, a metadata
unpickle error, or a metadata dict without a `"chunks"` key leaves the
whole session unchanged, so subsequent queries still short-circuit to the
not-loaded message.  Later failures mutate the session (see the
counterexample). -/
theorem load_early_failure_leaves_session_unchanged {E : Type}
    (readIndex : Except String (FaissIndex E)) (readData : Except String RawData)
    (s : SessionState E)
    (h : (∃ e, readIndex = .error e) ∨ (∃ e, readData = .error e) ∨
      (∃ d, readData = .ok d ∧ d.chunks = none)) :
    load_existing_index readIndex readData s.toPy = (false, s.toPy) ∧
    (s.index = none → ∀ env : Env E, ∀ question k,
      rag_query env s question k = (.ok ("Knowledge Base Not Loaded", "", []), [])) := by
  refine ⟨?_, fun hn env question k => rag_query_guard env s question k (Or.inl hn)⟩
  rcases h with ⟨e, he⟩ | ⟨e, he⟩ | ⟨d, hd, hdc⟩
  · rw [he]
    rfl
  · rw [he]
    cases readIndex <;> rfl
  · rw [hd]
    cases readIndex with
    | error e => rfl
    | ok index => simp [load_existing_index, hdc]

/-- The metadata record of a corrupt save whose `"chunks"` entry is a
non-sized value (an int), with a well-formed `"sources"` entry. -/
def rdCorruptChunksW : RawData :=
  { chunks := some (.intVal 42), sources := some (.strList ["Source: udst - url"]),
    api_key := none }

/-- C5 counterexample: loading metadata whose `"chunks"` entry is the int
`42` assigns `chunks`, `sources` and `index`, and only then fails at the
success message's `len(data["chunks"])` — the load returns `False`, yet
the session's `index` is now set (and `chunks`/`sources` overwritten)
instead of being left in its prior unset state, so subsequent queries do
not short-circuit to the not-loaded message, contradicting the claim. -/
theorem load_failure_leaves_knowledge_base_set_counterexample :
    (load_existing_index (.ok idxW) (.ok rdCorruptChunksW) ((initState Nat "").toPy)).1
        = false ∧
    ((load_existing_index (.ok idxW) (.ok rdCorruptChunksW) ((initState Nat "").toPy)).2).index
        = some idxW ∧
    ((initState Nat "").toPy).index = none ∧
    ((load_existing_index (.ok idxW) (.ok rdCorruptChunksW) ((initState Nat "").toPy)).2).chunks
        = .intVal 42 ∧
    ((initState Nat "").toPy).chunks = .strList [] ∧
    ((load_existing_index (.ok idxW) (.ok rdCorruptChunksW) ((initState Nat "").toPy)).2).sources
        = .strList ["Source: udst - url"] ∧
    ((initState Nat "").toPy).sources = .strList [] :=
  ⟨rfl, rfl, rfl, rfl, rfl, rfl, rfl⟩

theorem load_early_failure_leaves_session_unchanged_witness :
    load_existing_index (Except.error "missing file") (.ok rdCorruptChunksW)
        ((initState Nat "").toPy)
      = (false, (initState Nat "").toPy) ∧
    ((initState Nat "").index = none → ∀ env : Env Nat, ∀ question k,
      rag_query env (initState Nat "") question k
        = (.ok ("Knowledge Base Not Loaded", "", []), [])) :=
  load_early_failure_leaves_session_unchanged (Except.error "missing file")
    (.ok rdCorruptChunksW) (initState Nat "") (Or.inl ⟨"missing file", rfl⟩)

/-- C10: loading a persisted knowledge base never overwrites a non-empty
API credential — whenever the session key is non-empty beforehand, it is
unchanged after `load_existing_index`, whatever the load does (including
the late failure at the success message, which happens after the guarded
key assignment). -/
theorem load_preserves_nonempty_api_key {E : Type}
    (readIndex : Except String (FaissIndex E)) (readData : Except String RawData)
    (s : PySessionState E) (h : s.api_key ≠ "") :
    ((load_existing_index readIndex readData s).2).api_key = s.api_key := by
  rcases readIndex with e | index
  · rfl
  rcases readData with e | data
  · rfl
  rcases hcs : data.chunks with _ | cs
  · simp [load_existing_index, hcs]
  rcases hss : data.sources with _ | ss
  · simp [load_existing_index, hcs, hss]
  rcases hak : data.api_key with _ | key <;>
    rcases hlen : pklLen cs with _ | n <;>
      simp [load_existing_index, hcs, hss, hak, hlen, h]

/-- Metadata carrying a cached API key, for the C10 witness. -/
def rdWithKeyW : RawData :=
  { chunks := some (.strList ["policy chunk"]),
    sources := some (.strList ["Source: udst - url"]),
    api_key := some "cached-key" }

theorem load_preserves_nonempty_api_key_witness :
    ((load_existing_index (.ok idxW) (.ok rdWithKeyW)
        ((initState Nat "my-key").toPy)).2).api_key
      = ((initState Nat "my-key").toPy).api_key :=
  load_preserves_nonempty_api_key (.ok idxW) (.ok rdWithKeyW)
    ((initState Nat "my-key").toPy) (by decide)

/-! ### C7: the context block -/

/-- Concatenation of a list of strings, in order. -/
def concatList : List String → String
  | [] => ""
  | x :: xs => x ++ concatList xs

/-- The claim's description of the context block: one section per
retrieved chunk, in retrieval order, numbered from 1, each holding the
chunk text and the position-aligned source label, ending in the `---`
delimiter line. -/
def contextSections (rc rs : List String) : List String :=
  rc.enum.map (fun p => chunkSection p.1 p.2 (rs.getD p.1 ""))

lemma listComp_length {α : Type} (l : List α) :
    ∀ (idxs : List Int) (r : List α), listComp l idxs = some r → r.length = idxs.length := by
  intro idxs
  induction idxs with
  | nil =>
    intro r h
    simp only [listComp, Option.some.injEq] at h
    rw [← h]
    rfl
  | cons i rest ih =>
    intro r h
    rcases hp : pyGet l i with _ | v <;> rw [listComp, hp] at h
    · exact absurd h (by simp)
    rcases hrest : listComp l rest with _ | vs <;> rw [hrest] at h
    · exact absurd h (by simp)
    simp only [Option.some.injEq] at h
    rw [← h, List.length_cons, ih vs hrest, List.length_cons]

lemma buildContextAux_eq (rs : List String) :
    ∀ (rc : List String) (i : Nat) (acc : String), i + rc.length ≤ rs.length →
      buildContextAux rs i acc rc
        = some (acc ++ concatList ((rc.enumFrom i).map
            (fun p => chunkSection p.1 p.2 (rs.getD p.1 "")))) := by
  intro rc
  induction rc with
  | nil =>
    intro i acc h
    simp [buildContextAux, concatList]
  | cons c rest ih =>
    intro i acc h
    have hi : i < rs.length := by
      simp only [List.length_cons] at h
      omega
    have hsrc : rs[i]? = some rs[i] := List.getElem?_eq_getElem hi
    rw [buildContextAux, hsrc]
    show buildContextAux rs (i+1) (acc ++ chunkSection i c rs[i]) rest = _
    rw [ih (i+1) (acc ++ chunkSection i c rs[i])
      (by simp only [List.length_cons] at h; omega)]
    rw [List.enumFrom_cons, List.map_cons]
    simp only [concatList]
    rw [List.getD_eq_getElem rs "" hi, String.append_assoc]

/-- Full evaluation of `rag_query` on the success path: question embedded,
index searched, all returned indices in range for both arrays. -/
lemma rag_query_success_eq {E : Type} (env : Env E) (s : SessionState E)
    (question : String) (k : Nat) (ix : FaissIndex E) (qe : E)
    (idxs : List Int) (rc rs : List String)
    (hidx : s.index = some ix) (hch : s.chunks ≠ [])
    (hembed : env.embed [question] = some [qe])
    (hsearch : ix.search qe k = idxs)
    (hrc : listComp s.chunks idxs = some rc)
    (hrs : listComp s.sources idxs = some rs) :
    rag_query env s question k =
      (.ok (match env.chat (buildPrompt (concatList (contextSections rc rs)) question) with
          | .ok r => r
          | .error e => "Error generating response: " ++ e,
        concatList (contextSections rc rs), rs),
        [NetCall.embedReq [question], NetCall.searchReq k,
          NetCall.chatReq (buildPrompt (concatList (contextSections rc rs)) question)]) := by
  rcases hc : s.chunks with _ | ⟨c, cs⟩
  · exact absurd hc hch
  have hlen : rc.length ≤ rs.length := by
    rw [listComp_length s.chunks idxs rc hrc, listComp_length s.sources idxs rs hrs]
  have hbc : buildContext rc rs = some (concatList (contextSections rc rs)) := by
    unfold buildContext contextSections
    rw [buildContextAux_eq rs rc 0 "" (by omega)]
    rw [String.empty_append]
    rfl
  have htake : (question :: ([] : List String)).take 10 = [question] := rfl
  have hdrop : (question :: ([] : List String)).drop 10 = ([] : List String) := rfl
  have hrc' : listComp (c :: cs) idxs = some rc := by rw [← hc]; exact hrc
  simp [rag_query, hidx, hc, get_text_embedding_cons env.embed 10 (by decide),
    htake, hdrop, hembed, get_text_embedding_nil, hsearch, hrc', hrs, hbc]

/-- C7: on a successful retrieval of `k` chunks, the context block
returned by `rag_query` is exactly the concatenation, in retrieval order,
of one numbered section per retrieved chunk (numbers 1..k via
`chunkSection`, which prints `i+1`), each carrying the chunk text and the
position-aligned source label and ending in a delimiter line; the source
list returned is the aligned source array. -/
theorem rag_query_context_block_format {E : Type} (env : Env E) (s : SessionState E)
    (question : String) (k : Nat) (ix : FaissIndex E) (qe : E)
    (idxs : List Int) (rc rs : List String)
    (hidx : s.index = some ix) (hch : s.chunks ≠ [])
    (hembed : env.embed [question] = some [qe])
    (hsearch : ix.search qe k = idxs)
    (hrc : listComp s.chunks idxs = some rc)
    (hrs : listComp s.sources idxs = some rs)
    (hk : rc.length = k) :
    (contextSections rc rs).length = k ∧
    rag_query env s question k =
      (.ok (match env.chat (buildPrompt (concatList (contextSections rc rs)) question) with
          | .ok r => r
          | .error e => "Error generating response: " ++ e,
        concatList (contextSections rc rs), rs),
        [NetCall.embedReq [question], NetCall.searchReq k,
          NetCall.chatReq (buildPrompt (concatList (contextSections rc rs)) question)]) := by
  constructor
  · rw [contextSections, List.length_map, List.enum_length, hk]
  · exact rag_query_success_eq env s question k ix qe idxs rc rs hidx hch hembed hsearch
      hrc hrs

/-- A three-row concrete faiss index whose search returns rows 0..k-1. -/
def idx3W : FaissIndex Nat :=
  { ntotal := 3, search := fun _ k => (List.range k).map Int.ofNat }

/-- A loaded three-chunk knowledge base used by the retrieval witnesses. -/
def kbStateW : SessionState Nat :=
  { api_key := "key",
    chunks := ["cats are mammals", "dogs are mammals", "the sky is blue"],
    sources := ["A", "A", "B"],
    index := some idx3W,
    chat_history := [] }

theorem rag_query_context_block_format_witness :
    (contextSections ["cats are mammals", "dogs are mammals", "the sky is blue"]
        ["A", "A", "B"]).length = 3 ∧
    rag_query envW kbStateW "what is a mammal" 3 =
      (.ok (match envW.chat (buildPrompt (concatList (contextSections
              ["cats are mammals", "dogs are mammals", "the sky is blue"] ["A", "A", "B"]))
              "what is a mammal") with
          | .ok r => r
          | .error e => "Error generating response: " ++ e,
        concatList (contextSections
          ["cats are mammals", "dogs are mammals", "the sky is blue"] ["A", "A", "B"]),
        ["A", "A", "B"]),
        [NetCall.embedReq ["what is a mammal"], NetCall.searchReq 3,
          NetCall.chatReq (buildPrompt (concatList (contextSections
            ["cats are mammals", "dogs are mammals", "the sky is blue"] ["A", "A", "B"]))
            "what is a mammal")]) :=
  rag_query_context_block_format envW kbStateW "what is a mammal" 3 idx3W 7 [0, 1, 2]
    ["cats are mammals", "dogs are mammals", "the sky is blue"] ["A", "A", "B"]
    rfl (by decide) rfl rfl rfl rfl rfl

/-! ### C8 and C9: the Answer Composer failure mode and the credential guard -/

/-- C8: when every chat-completion request raises, the question handler
neither crashes nor re-raises (`.ok`): the visible answer text is the
error message, and the conversation history records that same string as
the assistant turn's content. -/
theorem chat_error_returned_and_recorded {E : Type} (env : Env E) (s : SessionState E)
    (question msg : String) (ix : FaissIndex E) (qe : E) (rc rs : List String)
    (hkey : s.api_key ≠ "") (hidx : s.index = some ix) (hch : s.chunks ≠ [])
    (hembed : env.embed [question] = some [qe])
    (hrc : listComp s.chunks (ix.search qe 3) = some rc)
    (hrs : listComp s.sources (ix.search qe 3) = some rs)
    (hchat : ∀ p, env.chat p = .error msg) :
    (handle_question env s question).2.1 = .ok ("Error generating response: " ++ msg) ∧
    ((handle_question env s question).1).chat_history
      = s.chat_history ++
        [Turn.mk "user" question "" [],
          Turn.mk "assistant" ("Error generating response: " ++ msg)
            (concatList (contextSections rc rs)) rs] := by
  have hrag := rag_query_success_eq env
    { s with chat_history := s.chat_history ++ [Turn.mk "user" question "" []] }
    question 3 ix qe (ix.search qe 3) rc rs hidx hch hembed rfl hrc hrs
  rw [hchat] at hrag
  simp only [hidx] at hrag
  constructor <;> simp [handle_question, hkey, hidx, hrag]

/-- An environment whose chat endpoint always raises. -/
def envChatFailW : Env Nat :=
  { embed := fun b => some (List.replicate b.length 7),
    chat := fun _ => .error "boom" }

theorem chat_error_returned_and_recorded_witness :
    (handle_question envChatFailW kbStateW "q").2.1
        = .ok ("Error generating response: " ++ "boom") ∧
    ((handle_question envChatFailW kbStateW "q").1).chat_history
      = kbStateW.chat_history ++
        [Turn.mk "user" "q" "" [],
          Turn.mk "assistant" ("Error generating response: " ++ "boom")
            (concatList (contextSections
              ["cats are mammals", "dogs are mammals", "the sky is blue"] ["A", "A", "B"]))
            ["A", "A", "B"]] :=
  chat_error_returned_and_recorded envChatFailW kbStateW "q" "boom" idx3W 7
    ["cats are mammals", "dogs are mammals", "the sky is blue"] ["A", "A", "B"]
    (by decide) rfl (by decide) rfl rfl rfl (fun _ => rfl)

/-- C9: a question submitted while the API credential is empty
short-circuits to the configure-credential message, with empty context
and sources in the recorded assistant turn, an empty trace (no network
call — `rag_query` is never reached). -/
theorem missing_credential_short_circuits {E : Type} (env : Env E) (s : SessionState E)
    (question : String) (hkey : s.api_key = "") :
    handle_question env s question =
      ({ s with chat_history := s.chat_history ++
          [Turn.mk "user" question "" [],
            Turn.mk "assistant" "Please enter your Mistral API key in the sidebar." "" []] },
        .ok "Please enter your Mistral API key in the sidebar.", []) := by
  simp [handle_question, hkey]

theorem missing_credential_short_circuits_witness :
    handle_question envW (initState Nat "") "a question" =
      ({ initState Nat "" with chat_history := (initState Nat "").chat_history ++
          [Turn.mk "user" "a question" "" [],
            Turn.mk "assistant" "Please enter your Mistral API key in the sidebar." "" []] },
        .ok "Please enter your Mistral API key in the sidebar.", []) :=
  missing_credential_short_circuits envW (initState Nat "") "a question" rfl

end RagApp
